import Mathlib

/-!
Shallow embedding of the safesql static analyzer (package `safesql`).

The source is a Go analysis pass built on `golang.org/x/tools/go/analysis`.
The embedding translates the repository's own functions — `run`,
`CheckSafeSqlSsa`, `CheckSafeSqlAst`, `FindQueryMethods`, `FuncHasQuery`,
`FindNonConstCalls`, and the `sqlPackages` catalog — into Lean functions over
explicit data types that stand for the external collaborators' objects
(`go/types`, `go/ssa`, `go/ast`, `callgraph`).  Go panics and `os.Exit` calls
are modelled by `Option`: a result of `none` means the analysis aborted and
never returned.
-/

/-- Static type of a Go value as far as the analyzer inspects it: the code only
ever compares a type against `types.Typ[types.String]`, so every other type is
collapsed into an identified `otherT`. -/
inductive GoType where
  | stringT : GoType
  | otherT : Nat → GoType
deriving DecidableEq

/-- An `ssa.Value` as far as `FindNonConstCalls` inspects it.  The source only
distinguishes `*ssa.Const`, `*ssa.MakeInterface` (for which it reads
`types.IsInterface(v.Type())`, `inter.X.Referrers() == nil` and `inter.X.Type()`),
and everything else. -/
inductive SsaValue where
  /-- an `*ssa.Const` (literal or named compile-time constant); the payload is
  the constant's type, which the analyzer never reads. -/
  | const : GoType → SsaValue
  /-- an `*ssa.MakeInterface`; fields record, in order, whether
  `types.IsInterface(v.Type())` holds, whether `inter.X.Referrers() == nil`,
  and the static type `inter.X.Type()` of the boxed operand. -/
  | makeInterface : Bool → Bool → GoType → SsaValue
  /-- any other kind of `ssa.Value` (parameter, call result, binop, ...). -/
  | otherValue : Nat → SsaValue
deriving DecidableEq

/-- An `*ssa.Function`.  `fid` is the function's identity (Go compares function
pointers), `pkgPath` models `fn.Pkg.Pkg.Path()`, and `synthetic` models whether
the function is compiler-synthesized (`fn.Synthetic != ""`), which is what
`callgraph.Graph.DeleteSyntheticNodes` keys on. -/
structure SsaFunction where
  fid : Nat
  pkgPath : String
  synthetic : Bool
deriving DecidableEq

/-- An `ssa.CallInstruction` together with the data the analyzer reads from it:
its source position (`Pos()`), its enclosing function (`Parent()`) and the
argument values of `Common().Args`. -/
structure CallSite where
  pos : Nat
  parent : SsaFunction
  args : List SsaValue
deriving DecidableEq

/-- A `callgraph.Edge`: the caller node's function (`edge.Caller.Func`) and the
call site (`edge.Site`). -/
structure CallEdge where
  callerFunc : SsaFunction
  site : CallSite
deriving DecidableEq

/-- A `callgraph.Node`: the function it stands for and its incoming edges
(`node.In`).  Outgoing edges are only used by the source for debug printing, so
they are not modelled. -/
structure CallGraphNode where
  fn : SsaFunction
  inEdges : List CallEdge
deriving DecidableEq

/-- A `callgraph.Graph`: the node map `cg.Nodes`, modelled as an association
list from function to node in iteration order. -/
structure CallGraph where
  nodes : List CallGraphNode
deriving DecidableEq

/-- Looking a function up in the graph's node map (`cg.Nodes[f]`). -/
def CallGraph.lookupNode (cg : CallGraph) (f : SsaFunction) : Option CallGraphNode :=
  cg.nodes.find? (fun n => n.fn == f)

/-- Modelled from the spec: `callgraph.Graph.DeleteSyntheticNodes` is supplied
by the external call-graph collaborator (package `x/tools/go/callgraph`, not
part of this repository); per the spec, synthetic/thunk nodes are removable and
after pruning every remaining edge corresponds to a source-visible call.  It is
modelled as dropping every node of a synthetic function and every incoming edge
whose caller is synthetic. -/
def deleteSyntheticNodes (cg : CallGraph) : CallGraph :=
  { nodes :=
      (cg.nodes.filter (fun n => !n.fn.synthetic)).map
        (fun n => { n with inEdges := n.inEdges.filter (fun e => !e.callerFunc.synthetic) }) }

/-- The `sqlPackage` catalog entry: a library identity and the set of parameter
names marking a query argument.  The source struct also carries `enable` and
`pkg` fields that no code reads; they are omitted. -/
structure SqlPackage where
  packageName : String
  paramNames : List String
deriving DecidableEq

/-- The `sqlPackages` catalog from the source, verbatim. -/
def sqlPackages : List SqlPackage :=
  [ { packageName := "database/sql", paramNames := ["query"] },
    { packageName := "github.com/jinzhu/gorm", paramNames := ["sql", "query"] },
    { packageName := "github.com/jmoiron/sqlx", paramNames := ["query"] } ]

/-- A `QueryMethod`: a method with a tracked string parameter.  The source's
`Func *types.Func` field is only used for debug printing and is omitted;
`SSA` is the method's `ssa.Function`, `ArgCount` its declared parameter count,
`Param` the tracked parameter's index. -/
structure QueryMethod where
  SSA : SsaFunction
  ArgCount : Nat
  Param : Nat
deriving DecidableEq

/-- The allowlist built at the top of `FindNonConstCalls`: the set `okFuncs`
of every tracked method's underlying `ssa.Function`. -/
def okFuncsOf (qms : List QueryMethod) : List SsaFunction :=
  qms.map (fun m => m.SSA)

/-- The caller-package check of `FindNonConstCalls`: whether
`edge.Caller.Func.Pkg.Pkg.Path()` equals some catalog entry's `packageName`. -/
def isInternalSQLPkg (path : String) : Bool :=
  sqlPackages.any (fun pkg => pkg.packageName == path)

/-- The receiver adjustment of `FindNonConstCalls`: drop the first call-site
argument when the count is `m.ArgCount + 1`, keep the arguments when the count
is exactly `m.ArgCount`, and otherwise reach the source's
`panic("arg count mismatch")`, modelled as `none`. -/
def resolveArgs (m : QueryMethod) (args : List SsaValue) : Option (List SsaValue) :=
  if args.length = m.ArgCount + 1 then some (args.drop 1)
  else if args.length = m.ArgCount then some args
  else none

/-- The classification step of `FindNonConstCalls` on the designated argument
value `v`: `true` means the call site is appended to `bad`.  An `*ssa.Const` is
never flagged; a `*ssa.MakeInterface` whose own type is an interface is skipped
(`continue`) when the boxed operand has nil referrers or a non-string static
type, and flagged otherwise; every other value is flagged. -/
def flagsValue : SsaValue → Bool
  | SsaValue.const _ => false
  | SsaValue.makeInterface typeIsInterface xReferrersNil xType =>
      if typeIsInterface then
        if xReferrersNil || xType != GoType.stringT then false else true
      else true
  | SsaValue.otherValue _ => true

/-- Indexing `args[m.Param]` and classifying: a Go index out of range is a
runtime panic, modelled as `none`. -/
def classifyAt (args : List SsaValue) (i : Nat) (s : CallSite) : Option (List CallSite) :=
  match args[i]? with
  | none => none
  | some v => some (if flagsValue v then [s] else [])

/-- The body of `FindNonConstCalls`'s inner loop for one incoming edge: skip
(contribute nothing) when `edge.Site.Parent()` is in `okFuncs` or when the
caller's package is one of the catalog's own libraries; otherwise adjust the
arguments, index the designated parameter and classify. -/
def checkEdge (okFuncs : List SsaFunction) (m : QueryMethod) (e : CallEdge) :
    Option (List CallSite) :=
  if e.site.parent ∈ okFuncs then some []
  else if isInternalSQLPkg e.callerFunc.pkgPath then some []
  else
    match resolveArgs m e.site.args with
    | none => none
    | some args => classifyAt args m.Param e.site

/-- Sequential processing of a node's incoming edges, appending each edge's
contribution to `bad`; a panic (`none`) aborts the whole run. -/
def checkEdges (okFuncs : List SsaFunction) (m : QueryMethod) :
    List CallEdge → Option (List CallSite)
  | [] => some []
  | e :: es =>
    match checkEdge okFuncs m e with
    | none => none
    | some r =>
      match checkEdges okFuncs m es with
      | none => none
      | some rs => some (r ++ rs)

/-- The per-method step of `FindNonConstCalls`: look the method's function up
in `cg.Nodes`; an absent node contributes nothing (`continue`). -/
def checkMethod (cg : CallGraph) (okFuncs : List SsaFunction) (m : QueryMethod) :
    Option (List CallSite) :=
  match cg.lookupNode m.SSA with
  | none => some []
  | some node => checkEdges okFuncs m node.inEdges

/-- Sequential processing of the tracked methods, in catalog order. -/
def checkMethods (cg : CallGraph) (okFuncs : List SsaFunction) :
    List QueryMethod → Option (List CallSite)
  | [] => some []
  | m :: ms =>
    match checkMethod cg okFuncs m with
    | none => none
    | some r =>
      match checkMethods cg okFuncs ms with
      | none => none
      | some rs => some (r ++ rs)

/-- `FindNonConstCalls` from the source: prune synthetic nodes, build the
`okFuncs` allowlist, and walk each tracked method's incoming edges collecting
the unsafe call sites.  `none` models the function panicking (never
returning). -/
def FindNonConstCalls (cg : CallGraph) (qms : List QueryMethod) :
    Option (List CallSite) :=
  checkMethods (deleteSyntheticNodes cg) (okFuncsOf qms) qms

/-- State of the caller's graph object after `FindNonConstCalls` returns: the
only mutation the source performs on `cg` is the initial
`cg.DeleteSyntheticNodes()`; the rest of the function only reads the graph. -/
def findNonConstCallsGraphAfter (cg : CallGraph) : CallGraph :=
  deleteSyntheticNodes cg

/-- A `*types.Var` standing for one declared parameter; the analyzer only
reads its name. -/
structure GoVar where
  name : String
deriving DecidableEq

/-- A `*types.Signature` as far as the analyzer inspects it: the parameter
tuple, in declaration order. -/
structure GoSignature where
  params : List GoVar
deriving DecidableEq

/-- An exported-surface method (a `*types.Func` on a named type).  `ssaFn`
models `ssa.Program.FuncValue(m)`, the method's SSA function. -/
structure GoMethod where
  exported : Bool
  sig : GoSignature
  ssaFn : SsaFunction
deriving DecidableEq

/-- A `*types.Named` type with its method set. -/
structure GoNamed where
  methods : List GoMethod
deriving DecidableEq

/-- A package-scope object as `FindQueryMethods` discriminates them: either a
`*types.TypeName` with its named type, or any other kind of object. -/
inductive GoObject where
  | typeName : Bool → GoNamed → GoObject
  | otherObject : Bool → GoObject
deriving DecidableEq

/-- Whether a scope object is exported (`o.Exported()`). -/
def GoObject.exported : GoObject → Bool
  | GoObject.typeName ex _ => ex
  | GoObject.otherObject ex => ex

/-- A `*types.Package`: its scope's objects in `scope.Names()` order. -/
structure GoPackage where
  scope : List GoObject
deriving DecidableEq

/-- The scanning loop of `FuncHasQuery`, carrying the running parameter
index. -/
def funcHasQueryAux (sp : SqlPackage) : List GoVar → Nat → Option Nat
  | [], _ => none
  | v :: rest, i =>
    if sp.paramNames.contains v.name then some i
    else funcHasQueryAux sp rest (i + 1)

/-- `FuncHasQuery` from the source: the offset of the first parameter whose
name is in the catalog entry's `paramNames`, or `none` (the source's
`(0, false)`) when no parameter matches. -/
def FuncHasQuery (sp : SqlPackage) (s : GoSignature) : Option Nat :=
  funcHasQueryAux sp s.params 0

/-- The inner loop of `FindQueryMethods` over one named type's methods:
unexported methods are skipped, and each method whose signature has a tracked
parameter yields a `QueryMethod` recording its SSA function, parameter count
and matched index. -/
def methodsOfNamed (sp : SqlPackage) (n : GoNamed) : List QueryMethod :=
  n.methods.filterMap (fun m =>
    if m.exported then
      (FuncHasQuery sp m.sig).map (fun num =>
        { SSA := m.ssaFn, ArgCount := m.sig.params.length, Param := num })
    else none)

/-- `FindQueryMethods` from the source: scan the library package's scope in
name order, keeping only exported `TypeName` objects, and collect the tracked
methods of each named type. -/
def FindQueryMethods (sp : SqlPackage) (sql : GoPackage) : List QueryMethod :=
  sql.scope.flatMap (fun o =>
    match o with
    | GoObject.typeName ex named => if ex then methodsOfNamed sp named else []
    | GoObject.otherObject _ => [])

/-- Character-list core of `strings.HasPrefix`. -/
def charListPref : List Char → List Char → Bool
  | [], _ => true
  | _ :: _, [] => false
  | c :: cs, d :: ds => c == d && charListPref cs ds

/-- Go's `strings.HasPrefix(s, pre)`: whether `pre` is a prefix of `s`. -/
def strHasPref (s pre : String) : Bool :=
  charListPref pre.data s.data

/-- An error value returned by one of the two check passes. -/
inductive GoError where
  /-- the `fmt.Errorf("found %d safesql errors", len(bad))` of `CheckSafeSqlSsa`. -/
  | foundSafesqlErrors : Nat → GoError
  /-- the `errors.New("potentially unsafe SQL queries found")` of `CheckSafeSqlAst`. -/
  | potentiallyUnsafe : GoError
deriving DecidableEq

/-- One entry of `prog.AllPackages()`: an SSA package's import path and its
`types` package. -/
structure ProgPackage where
  path : String
  pkg : GoPackage
deriving DecidableEq

/-- An expression appearing as a call argument in the AST pass: the source
only distinguishes `*ast.BasicLit` (and then whether `lit.Kind == token.STRING`)
from everything else, and reads the argument's position. -/
inductive AstExpr where
  | basicLit : Bool → Nat → AstExpr
  | otherExpr : Nat → AstExpr
deriving DecidableEq

/-- The callee of an AST call when `typeutil.Callee` yields a `*types.Func`:
its package path (`fn.Pkg()` may be nil) and its signature. -/
structure AstFunc where
  pkgPath : Option String
  sig : GoSignature
deriving DecidableEq

/-- One `*ast.CallExpr` visited by the inspector, with its resolved callee
(`none` when the callee is not a `*types.Func`) and its argument list. -/
structure AstCall where
  callee : Option AstFunc
  args : List AstExpr
deriving DecidableEq

/-- The `analysis.Pass` data the two check passes consume: the analyzed
package's path, the SSA program's package list, whether the SSA package has a
literal `main` function, the pointer-analysis result (`none` models
`pointer.Analyze` failing, upon which the source calls `os.Exit(2)`), and the
AST call expressions in inspector preorder. -/
structure Pass where
  pkgPath : String
  progPackages : List ProgPackage
  hasMain : Bool
  ptaGraph : Option CallGraph
  astCalls : List AstCall
deriving DecidableEq

/-- The query-method collection loop at the top of `CheckSafeSqlSsa`: for each
catalog entry, find the first used package with that path (if any) and resolve
its query methods. -/
def ssaQueryMethods (p : Pass) : List QueryMethod :=
  sqlPackages.foldl (fun acc sp =>
    match p.progPackages.find? (fun up => up.path == sp.packageName) with
    | none => acc
    | some up => acc ++ FindQueryMethods sp up.pkg) []

/-- `CheckSafeSqlSsa` from the source.  The result pairs the returned `error`
with the positions the pass prints for the unsafe calls it found; `none` means
the pass never returned (`os.Exit(2)` on a pointer-analysis failure, or the
panic inside `FindNonConstCalls`). -/
def CheckSafeSqlSsa (p : Pass) : Option (Option GoError × List Nat) :=
  let qms := ssaQueryMethods p
  if !p.hasMain then some (none, [])
  else
    match p.ptaGraph with
    | none => none
    | some cg =>
      match FindNonConstCalls cg qms with
      | none => none
      | some bad =>
        some ((if bad.length > 0 then some (GoError.foundSafesqlErrors bad.length) else none),
              bad.map (fun s => s.pos))

/-- The parameter loop of `CheckSafeSqlAst` for one call and one catalog
entry: scan the callee's parameters; at each tracked name, read the call
argument at the same index (a Go slice index out of range is a runtime panic,
modelled as `none`) and count/report non-literal and non-string-literal
arguments. -/
def astCheckParamsAux (sp : SqlPackage) (args : List AstExpr) :
    List GoVar → Nat → Option (Nat × List Nat)
  | [], _ => some (0, [])
  | v :: rest, i =>
    if sp.paramNames.contains v.name then
      match args[i]? with
      | none => none
      | some arg =>
        let here : Nat × List Nat :=
          match arg with
          | AstExpr.basicLit true _ => (0, [])
          | AstExpr.basicLit false q => (1, [q])
          | AstExpr.otherExpr q => (1, [q])
        match astCheckParamsAux sp args rest (i + 1) with
        | none => none
        | some (c, ps) => some (here.1 + c, here.2 ++ ps)
    else astCheckParamsAux sp args rest (i + 1)

/-- The catalog loop of `CheckSafeSqlAst` for one call: an entry is skipped
only when the callee's package is known and differs from the entry's path
(`fn.Pkg() != nil && fn.Pkg().Path() != sql.packageName`). -/
def astCheckCallAux (fn : AstFunc) (args : List AstExpr) :
    List SqlPackage → Option (Nat × List Nat)
  | [] => some (0, [])
  | sp :: rest =>
    let skip : Bool :=
      match fn.pkgPath with
      | some path => path != sp.packageName
      | none => false
    if skip then astCheckCallAux fn args rest
    else
      match astCheckParamsAux sp args fn.sig.params 0 with
      | none => none
      | some (c1, p1) =>
        match astCheckCallAux fn args rest with
        | none => none
        | some (c2, p2) => some (c1 + c2, p1 ++ p2)

/-- One call expression's contribution to `CheckSafeSqlAst`: calls whose
callee is not a `*types.Func` are ignored. -/
def astCheckCall (c : AstCall) : Option (Nat × List Nat) :=
  match c.callee with
  | none => some (0, [])
  | some fn => astCheckCallAux fn c.args sqlPackages

/-- The inspector traversal of `CheckSafeSqlAst` over all call expressions,
accumulating the error count and reported positions. -/
def astCheckCalls : List AstCall → Option (Nat × List Nat)
  | [] => some (0, [])
  | c :: cs =>
    match astCheckCall c with
    | none => none
    | some (c1, p1) =>
      match astCheckCalls cs with
      | none => none
      | some (c2, p2) => some (c1 + c2, p1 ++ p2)

/-- `CheckSafeSqlAst` from the source: walk every call expression, count the
flagged arguments, and return an error exactly when the count is nonzero.  The
second component collects the positions passed to `pass.Reportf`. -/
def CheckSafeSqlAst (p : Pass) : Option (Option GoError × List Nat) :=
  match astCheckCalls p.astCalls with
  | none => none
  | some (n, ps) =>
    some ((if n ≠ 0 then some GoError.potentiallyUnsafe else none), ps)

/-- `run` from the source: packages whose path has a catalog library path as a
string prefix are exempted immediately (`return nil, nil`); otherwise both
passes execute in order and the returned error is whatever `CheckSafeSqlAst`
returned, the `CheckSafeSqlSsa` error having been overwritten.  The result
pairs `run`'s returned error with every finding position the two passes
printed or reported; `none` means the process aborted inside a pass. -/
def run (p : Pass) : Option (Option GoError × List Nat) :=
  if sqlPackages.any (fun sql => strHasPref p.pkgPath sql.packageName) then some (none, [])
  else
    match CheckSafeSqlSsa p with
    | none => none
    | some r1 =>
      match CheckSafeSqlAst p with
      | none => none
      | some r2 => some (r2.1, r1.2 ++ r2.2)

/-- The precondition of `FindNonConstCalls` stated by the spec: the graph has
had synthetic nodes removed — no remaining node's function is synthetic and no
remaining incoming edge has a synthetic caller. -/
def CallGraph.noSynthetic (cg : CallGraph) : Prop :=
  ∀ n ∈ cg.nodes, n.fn.synthetic = false ∧ ∀ e ∈ n.inEdges, e.callerFunc.synthetic = false

/-- Fixture: the `database/sql` catalog entry. -/
def dbSqlEntry : SqlPackage :=
  { packageName := "database/sql", paramNames := ["query"] }

/-- Fixture for C1: the tracked sink's SSA function. -/
def c1Sink : SsaFunction := { fid := 0, pkgPath := "database/sql", synthetic := false }

/-- Fixture for C1: a user function calling the sink. -/
def c1Caller : SsaFunction := { fid := 1, pkgPath := "main", synthetic := false }

/-- Fixture for C1: a call site whose designated argument is a value boxed
into an interface whose underlying operand has a non-string static type and a
recorded (non-nil) referrer list. -/
def c1Site : CallSite :=
  { pos := 42, parent := c1Caller,
    args := [SsaValue.makeInterface true false (GoType.otherT 0)] }

/-- Fixture for C1: the incoming call edge carrying `c1Site`. -/
def c1Edge : CallEdge := { callerFunc := c1Caller, site := c1Site }

/-- Fixture for C1: a call graph with the one sink node and one incoming edge. -/
def c1Graph : CallGraph := { nodes := [ { fn := c1Sink, inEdges := [c1Edge] } ] }

/-- Fixture for C1: the tracked sink method (one parameter, tracked index 0). -/
def c1Qm : QueryMethod := { SSA := c1Sink, ArgCount := 1, Param := 0 }

/-- Fixture for C2: the tracked sink's SSA function. -/
def c2Sink : SsaFunction := { fid := 10, pkgPath := "database/sql", synthetic := false }

/-- Fixture for C2: a user function calling the sink. -/
def c2Caller : SsaFunction := { fid := 11, pkgPath := "main", synthetic := false }

/-- Fixture for C2: a call site whose designated argument is an SSA constant. -/
def c2SiteA : CallSite :=
  { pos := 100, parent := c2Caller, args := [SsaValue.const GoType.stringT] }

/-- Fixture for C2: a second call site whose designated argument is not
constant. -/
def c2SiteB : CallSite :=
  { pos := 101, parent := c2Caller, args := [SsaValue.otherValue 7] }

/-- Fixture for C2: the edge carrying the constant argument. -/
def c2EdgeA : CallEdge := { callerFunc := c2Caller, site := c2SiteA }

/-- Fixture for C2: the edge carrying the non-constant argument. -/
def c2EdgeB : CallEdge := { callerFunc := c2Caller, site := c2SiteB }

/-- Fixture for C2: the sink's call-graph node with both incoming edges. -/
def c2Node : CallGraphNode := { fn := c2Sink, inEdges := [c2EdgeA, c2EdgeB] }

/-- Fixture for C2: the call graph with both edges into the sink. -/
def c2Graph : CallGraph := { nodes := [c2Node] }

/-- Fixture for C2: the tracked sink method. -/
def c2Qm : QueryMethod := { SSA := c2Sink, ArgCount := 1, Param := 0 }

/-- Fixture for C3: the tracked sink's SSA function. -/
def c3Sink : SsaFunction := { fid := 20, pkgPath := "database/sql", synthetic := false }

/-- Fixture for C3: a user function calling the sink. -/
def c3Caller : SsaFunction := { fid := 21, pkgPath := "main", synthetic := false }

/-- Fixture for C3: a call edge whose site carries three arguments although
the tracked method declares one parameter — neither `ArgCount` nor
`ArgCount + 1`. -/
def c3Edge : CallEdge :=
  { callerFunc := c3Caller,
    site := { pos := 200, parent := c3Caller,
              args := [SsaValue.otherValue 0, SsaValue.otherValue 1, SsaValue.otherValue 2] } }

/-- Fixture for C3: the sink's call-graph node. -/
def c3Node : CallGraphNode := { fn := c3Sink, inEdges := [c3Edge] }

/-- Fixture for C3: the call graph. -/
def c3Graph : CallGraph := { nodes := [c3Node] }

/-- Fixture for C3: the tracked sink method. -/
def c3Qm : QueryMethod := { SSA := c3Sink, ArgCount := 1, Param := 0 }

/-- Fixture for C4: a pass whose package identity is exactly `database/sql`,
with internal call patterns that would be flagged (a non-literal query
argument) and a pointer-analysis result that would abort, were it analyzed. -/
def c4Pass : Pass :=
  { pkgPath := "database/sql", progPackages := [], hasMain := true,
    ptaGraph := none,
    astCalls := [ { callee := some { pkgPath := some "database/sql",
                                     sig := { params := [ { name := "query" } ] } },
                    args := [AstExpr.otherExpr 3] } ] }

/-- Fixture for C5: a synthetic-free call graph with one node and one edge. -/
def c5Graph : CallGraph :=
  { nodes := [ { fn := { fid := 50, pkgPath := "database/sql", synthetic := false },
                 inEdges := [ { callerFunc := { fid := 51, pkgPath := "main", synthetic := false },
                                site := { pos := 500,
                                          parent := { fid := 51, pkgPath := "main", synthetic := false },
                                          args := [SsaValue.otherValue 0] } } ] } ] }

/-- Fixture for C6: the tracked sink's SSA function. -/
def c6Sink : SsaFunction := { fid := 30, pkgPath := "database/sql", synthetic := false }

/-- Fixture for C6: an edge whose caller is the tracked sink itself and whose
designated argument is not constant. -/
def c6Edge : CallEdge :=
  { callerFunc := c6Sink,
    site := { pos := 300, parent := c6Sink, args := [SsaValue.otherValue 5] } }

/-- Fixture for C6: the tracked sink method. -/
def c6Qm : QueryMethod := { SSA := c6Sink, ArgCount := 1, Param := 0 }

/-- Fixture for C7: a library package with one exported type carrying one
exported method `(query string, args T)`. -/
def c7Pkg : GoPackage :=
  { scope := [ GoObject.typeName true
                 { methods := [ { exported := true,
                                  sig := { params := [ { name := "query" }, { name := "args" } ] },
                                  ssaFn := { fid := 40, pkgPath := "database/sql", synthetic := false } } ] } ] }

/-- Fixture for C7: the query method the resolver produces for `c7Pkg`. -/
def c7Qm : QueryMethod :=
  { SSA := { fid := 40, pkgPath := "database/sql", synthetic := false },
    ArgCount := 2, Param := 0 }

/-- Fixture for C9: a non-exempt pass with no `main` function (so the IR pass
returns without error) and one AST call with a non-literal query argument (so
the syntax-tree pass returns its error). -/
def c9Pass : Pass :=
  { pkgPath := "a_pass", progPackages := [], hasMain := false, ptaGraph := none,
    astCalls := [ { callee := some { pkgPath := some "database/sql",
                                     sig := { params := [ { name := "query" } ] } },
                    args := [AstExpr.otherExpr 9] } ] }

/-- Fixture for C10: a pass whose package path strictly extends a catalog
library path. -/
def c10Pass : Pass :=
  { pkgPath := "database/sql/driver", progPackages := [], hasMain := true,
    ptaGraph := none,
    astCalls := [ { callee := some { pkgPath := some "database/sql",
                                     sig := { params := [ { name := "query" } ] } },
                    args := [AstExpr.otherExpr 4] } ] }






theorem listMapEqSelf {α : Type} (f : α → α) :
    ∀ l : List α, (∀ x ∈ l, f x = x) → l.map f = l := by
  intro l h
  induction l with
  | nil => rfl
  | cons a as ih =>
    simp only [List.map_cons, h a (List.mem_cons_self a as)]
    rw [ih (fun x hx => h x (List.mem_cons_of_mem a hx))]

theorem charListPref_refl : ∀ l : List Char, charListPref l l = true := by
  intro l
  induction l with
  | nil => rfl
  | cons c cs ih => simp [charListPref, ih]

theorem strHasPref_refl (s : String) : strHasPref s s = true :=
  charListPref_refl s.data

/-- C5: the constant-reachability engine only reads the call graph it is
given.  The single state-changing operation the source performs on `cg` is the
initial `cg.DeleteSyntheticNodes()`; under the spec's precondition that
synthetic nodes were already removed, that call changes nothing, so the
graph's nodes and edges after `FindNonConstCalls` returns are exactly the
input's. -/
theorem findNonConstCalls_graph_unchanged (cg : CallGraph) (h : cg.noSynthetic) :
    findNonConstCallsGraphAfter cg = cg := by
  unfold findNonConstCallsGraphAfter deleteSyntheticNodes
  have hf : cg.nodes.filter (fun n => !n.fn.synthetic) = cg.nodes := by
    apply List.filter_eq_self.mpr
    intro n hn
    simp [(h n hn).1]
  rw [hf]
  have hm : cg.nodes.map
      (fun n => { n with inEdges := n.inEdges.filter (fun e => !e.callerFunc.synthetic) }) =
      cg.nodes := by
    apply listMapEqSelf
    intro n hn
    have he : n.inEdges.filter (fun e => !e.callerFunc.synthetic) = n.inEdges := by
      apply List.filter_eq_self.mpr
      intro e hein
      simp [(h n hn).2 e hein]
    simp [he]
  rw [hm]

/-- C5 witness: the unchanged-graph theorem applied to the concrete
synthetic-free graph `c5Graph`. -/
theorem findNonConstCalls_graph_unchanged_witness :
    findNonConstCallsGraphAfter c5Graph = c5Graph :=
  findNonConstCalls_graph_unchanged c5Graph (by unfold CallGraph.noSynthetic; decide)

theorem deleteSyntheticNodes_idem (cg : CallGraph) :
    deleteSyntheticNodes (deleteSyntheticNodes cg) = deleteSyntheticNodes cg := by
  unfold deleteSyntheticNodes
  congr 1
  have h1 : ((cg.nodes.filter (fun n => !n.fn.synthetic)).map
        (fun n => { n with inEdges := n.inEdges.filter (fun e => !e.callerFunc.synthetic) })).filter
        (fun n => !n.fn.synthetic) =
      (cg.nodes.filter (fun n => !n.fn.synthetic)).map
        (fun n => { n with inEdges := n.inEdges.filter (fun e => !e.callerFunc.synthetic) }) := by
    apply List.filter_eq_self.mpr
    intro n hn
    obtain ⟨n0, hn0, rfl⟩ := List.mem_map.mp hn
    exact (List.mem_filter.mp hn0).2
  rw [h1]
  apply listMapEqSelf
  intro n hn
  obtain ⟨n0, hn0, rfl⟩ := List.mem_map.mp hn
  have he : ((n0.inEdges.filter (fun e => !e.callerFunc.synthetic)).filter
      (fun e => !e.callerFunc.synthetic)) = n0.inEdges.filter (fun e => !e.callerFunc.synthetic) := by
    apply List.filter_eq_self.mpr
    intro e hein
    exact (List.mem_filter.mp hein).2
  simp [he]

/-- C8: running the engine twice in sequence on the same call graph and the
same tracked methods yields the same set of unsafe call sites both times.  The
first run's only effect on the shared graph object is synthetic-node removal,
which is idempotent, so the second run — which operates on the graph state the
first run left behind — returns the same result. -/
theorem findNonConstCalls_idempotent (cg : CallGraph) (qms : List QueryMethod) :
    FindNonConstCalls (findNonConstCallsGraphAfter cg) qms = FindNonConstCalls cg qms := by
  unfold FindNonConstCalls findNonConstCallsGraphAfter
  rw [deleteSyntheticNodes_idem]

/-- C4: a pass whose package identity equals one of the catalog's library
identities is exempted outright: `run` returns no error and reports no
finding, whatever the pass's internal call patterns, SSA data or
pointer-analysis outcome. -/
theorem run_exempts_catalog_identity (p : Pass)
    (h : ∃ sql ∈ sqlPackages, p.pkgPath = sql.packageName) :
    run p = some (none, []) := by
  obtain ⟨sql, hsql, heq⟩ := h
  have hpre : strHasPref p.pkgPath sql.packageName = true := by
    rw [heq]; exact strHasPref_refl _
  have hany : sqlPackages.any (fun s => strHasPref p.pkgPath s.packageName) = true :=
    List.any_eq_true.mpr ⟨sql, hsql, hpre⟩
  unfold run
  simp [hany]

/-- C4 witness: the exemption theorem applied to `c4Pass`, whose path is
exactly `database/sql` and whose internals would otherwise both abort the IR
pass and produce an AST finding. -/
theorem run_exempts_catalog_identity_witness :
    run c4Pass = some (none, []) :=
  run_exempts_catalog_identity c4Pass ⟨dbSqlEntry, by decide, by decide⟩

/-- C10: the exemption test is a string-prefix test, not an identity test:
`run` returns immediately with no error and no findings for every package
whose path merely starts with a catalog library path. -/
theorem run_exempts_path_with_catalog_pref (p : Pass)
    (h : ∃ sql ∈ sqlPackages, strHasPref p.pkgPath sql.packageName = true) :
    run p = some (none, []) := by
  obtain ⟨sql, hsql, hpre⟩ := h
  have hany : sqlPackages.any (fun s => strHasPref p.pkgPath s.packageName) = true :=
    List.any_eq_true.mpr ⟨sql, hsql, hpre⟩
  unfold run
  simp [hany]

/-- C10 witness: the prefix-exemption theorem applied to `c10Pass`, whose path
`database/sql/driver` is not a catalog identity but extends one. -/
theorem run_exempts_path_with_catalog_pref_witness :
    run c10Pass = some (none, []) :=
  run_exempts_path_with_catalog_pref c10Pass ⟨dbSqlEntry, by decide, by decide⟩

theorem funcHasQueryAux_lt (sp : SqlPackage) :
    ∀ (l : List GoVar) (i j : Nat), funcHasQueryAux sp l i = some j → j < i + l.length := by
  intro l
  induction l with
  | nil => intro i j h; simp [funcHasQueryAux] at h
  | cons v rest ih =>
    intro i j h
    unfold funcHasQueryAux at h
    by_cases hc : sp.paramNames.contains v.name
    · rw [if_pos hc] at h
      cases h
      simp
    · rw [if_neg hc] at h
      have := ih (i + 1) j h
      simp only [List.length_cons]
      omega

/-- C7: every `QueryMethod` produced by the resolver records a parameter
index within the method's declared parameter count: `0 ≤ Param < ArgCount`
(the lower bound is inherent to the index being a natural number). -/
theorem findQueryMethods_param_in_range (sp : SqlPackage) (pkg : GoPackage)
    (qm : QueryMethod) (h : qm ∈ FindQueryMethods sp pkg) :
    0 ≤ qm.Param ∧ qm.Param < qm.ArgCount := by
  refine ⟨Nat.zero_le _, ?_⟩
  unfold FindQueryMethods at h
  obtain ⟨o, _, hqm⟩ := List.mem_flatMap.mp h
  cases o with
  | otherObject ex => simp at hqm
  | typeName ex named =>
    cases ex with
    | false => simp at hqm
    | true =>
      simp only [if_pos] at hqm
      unfold methodsOfNamed at hqm
      obtain ⟨m, _, hsome⟩ := List.mem_filterMap.mp hqm
      by_cases hex : m.exported
      · rw [if_pos hex] at hsome
        obtain ⟨num, hfq, hqmdef⟩ := Option.map_eq_some'.mp hsome
        have hlt := funcHasQueryAux_lt sp m.sig.params 0 num hfq
        rw [← hqmdef]
        simpa using hlt
      · rw [if_neg hex] at hsome
        cases hsome

/-- C7 witness: the range theorem applied to the method the resolver derives
from the concrete package `c7Pkg`. -/
theorem findQueryMethods_param_in_range_witness :
    0 ≤ c7Qm.Param ∧ c7Qm.Param < c7Qm.ArgCount :=
  findQueryMethods_param_in_range dbSqlEntry c7Pkg c7Qm (by decide)

theorem checkEdge_mem (okFuncs : List SsaFunction) (m : QueryMethod) (e : CallEdge)
    (r : List CallSite) (s : CallSite)
    (h : checkEdge okFuncs m e = some r) (hs : s ∈ r) :
    s = e.site ∧ ∃ args v, resolveArgs m e.site.args = some args ∧
      args[m.Param]? = some v ∧ flagsValue v = true := by
  unfold checkEdge at h
  by_cases h1 : e.site.parent ∈ okFuncs
  · rw [if_pos h1] at h
    cases h
    simp at hs
  · rw [if_neg h1] at h
    by_cases h2 : isInternalSQLPkg e.callerFunc.pkgPath = true
    · rw [if_pos h2] at h
      cases h
      simp at hs
    · rw [if_neg h2] at h
      cases hra : resolveArgs m e.site.args with
      | none => rw [hra] at h; cases h
      | some args =>
        rw [hra] at h
        unfold classifyAt at h
        dsimp only at h
        cases hv : args[m.Param]? with
        | none => rw [hv] at h; cases h
        | some v =>
          rw [hv] at h
          dsimp only at h
          cases h
          by_cases hf : flagsValue v = true
          · rw [if_pos hf] at hs
            simp at hs
            exact ⟨hs, args, v, hra ▸ rfl, hv, hf⟩
          · rw [if_neg hf] at hs
            simp at hs

theorem checkEdges_mem (okFuncs : List SsaFunction) (m : QueryMethod) :
    ∀ (es : List CallEdge) (r : List CallSite) (s : CallSite),
      checkEdges okFuncs m es = some r → s ∈ r →
      ∃ e ∈ es, ∃ re, checkEdge okFuncs m e = some re ∧ s ∈ re := by
  intro es
  induction es with
  | nil =>
    intro r s h hs
    unfold checkEdges at h
    cases h
    simp at hs
  | cons e rest ih =>
    intro r s h hs
    unfold checkEdges at h
    cases hce : checkEdge okFuncs m e with
    | none => rw [hce] at h; cases h
    | some re =>
      rw [hce] at h
      cases hcs : checkEdges okFuncs m rest with
      | none => rw [hcs] at h; cases h
      | some rs =>
        rw [hcs] at h
        cases h
        rcases List.mem_append.mp hs with hin | hin
        · exact ⟨e, List.mem_cons_self e rest, re, hce, hin⟩
        · obtain ⟨e2, he2, re2, hce2, hin2⟩ := ih rs s hcs hin
          exact ⟨e2, List.mem_cons_of_mem e he2, re2, hce2, hin2⟩

theorem checkMethods_mem (cg : CallGraph) (okFuncs : List SsaFunction) :
    ∀ (qms : List QueryMethod) (r : List CallSite) (s : CallSite),
      checkMethods cg okFuncs qms = some r → s ∈ r →
      ∃ m ∈ qms, ∃ rm, checkMethod cg okFuncs m = some rm ∧ s ∈ rm := by
  intro qms
  induction qms with
  | nil =>
    intro r s h hs
    unfold checkMethods at h
    cases h
    simp at hs
  | cons m rest ih =>
    intro r s h hs
    unfold checkMethods at h
    cases hcm : checkMethod cg okFuncs m with
    | none => rw [hcm] at h; cases h
    | some rm =>
      rw [hcm] at h
      cases hcs : checkMethods cg okFuncs rest with
      | none => rw [hcs] at h; cases h
      | some rs =>
        rw [hcs] at h
        cases h
        rcases List.mem_append.mp hs with hin | hin
        · exact ⟨m, List.mem_cons_self m rest, rm, hcm, hin⟩
        · obtain ⟨m2, hm2, rm2, hcm2, hin2⟩ := ih rs s hcs hin
          exact ⟨m2, List.mem_cons_of_mem m hm2, rm2, hcm2, hin2⟩

/-- C2: `FindNonConstCalls` never reports a call site whose designated
argument is an SSA constant.  Stated globally: if every incoming edge of every
tracked method that carries the call site `s` resolves its designated argument
to an `ssa.Const`, then `s` is not in the returned set of unsafe calls. -/
theorem findNonConstCalls_never_flags_const (cg : CallGraph) (qms : List QueryMethod)
    (res : List CallSite) (s : CallSite)
    (hres : FindNonConstCalls cg qms = some res)
    (hconst : ∀ m, m ∈ qms →
      ∀ node, (deleteSyntheticNodes cg).lookupNode m.SSA = some node →
      ∀ e, e ∈ node.inEdges → e.site = s →
      ∀ args, resolveArgs m e.site.args = some args →
      ∀ v, args[m.Param]? = some v → ∃ t, v = SsaValue.const t) :
    s ∉ res := by
  intro hmem
  unfold FindNonConstCalls at hres
  obtain ⟨m, hm, rm, hcm, hsrm⟩ := checkMethods_mem _ _ _ _ _ hres hmem
  unfold checkMethod at hcm
  cases hlk : (deleteSyntheticNodes cg).lookupNode m.SSA with
  | none =>
    rw [hlk] at hcm
    cases hcm
    simp at hsrm
  | some node =>
    rw [hlk] at hcm
    obtain ⟨e, he, re, hce, hsre⟩ := checkEdges_mem _ _ _ _ _ hcm hsrm
    obtain ⟨hsite, args, v, hra, hv, hflag⟩ := checkEdge_mem _ _ _ _ _ hce hsre
    obtain ⟨t, rfl⟩ := hconst m hm node hlk e he hsite.symm args hra v hv
    simp [flagsValue] at hflag

/-- C2 witness: in the concrete graph `c2Graph` the sink has two incoming
edges, one passing a constant (`c2SiteA`) and one passing a non-constant
(`c2SiteB`); the run reports exactly `c2SiteB`, and the theorem shows the
constant site is not reported. -/
theorem findNonConstCalls_never_flags_const_witness :
    FindNonConstCalls c2Graph [c2Qm] = some [c2SiteB] ∧ c2SiteA ∉ [c2SiteB] := by
  refine ⟨by decide, ?_⟩
  apply findNonConstCalls_never_flags_const c2Graph [c2Qm] [c2SiteB] c2SiteA (by decide)
  intro m hm node hnode e he hs args hargs v hv
  have hm2 : m = c2Qm := by simpa using hm
  subst hm2
  have hnode2 : node = c2Node := by
    have hlk : (deleteSyntheticNodes c2Graph).lookupNode c2Qm.SSA = some c2Node := by decide
    rw [hlk] at hnode
    exact (Option.some.inj hnode).symm
  subst hnode2
  have he2 : e = c2EdgeA ∨ e = c2EdgeB := by
    simpa [c2Node] using he
  rcases he2 with he2 | he2
  · subst he2
    have hargs2 : args = [SsaValue.const GoType.stringT] := by
      have hres : resolveArgs c2Qm c2EdgeA.site.args = some [SsaValue.const GoType.stringT] := by
        decide
      rw [hres] at hargs
      exact (Option.some.inj hargs).symm
    subst hargs2
    have hv2 : v = SsaValue.const GoType.stringT := by
      have : ([SsaValue.const GoType.stringT][c2Qm.Param]?) = some (SsaValue.const GoType.stringT) := by
        decide
      rw [this] at hv
      exact (Option.some.inj hv).symm
    exact ⟨GoType.stringT, hv2⟩
  · subst he2
    exact absurd hs (by decide)

theorem checkEdges_none_of_mem (okFuncs : List SsaFunction) (m : QueryMethod) (e : CallEdge) :
    ∀ es : List CallEdge, e ∈ es → checkEdge okFuncs m e = none →
      checkEdges okFuncs m es = none := by
  intro es
  induction es with
  | nil => intro he; cases he
  | cons a rest ih =>
    intro he hnone
    rcases List.mem_cons.mp he with rfl | hin
    · unfold checkEdges
      rw [hnone]
    · unfold checkEdges
      cases checkEdge okFuncs m a with
      | none => rfl
      | some r =>
        rw [ih hin hnone]

theorem checkMethods_none_of_mem (cg : CallGraph) (okFuncs : List SsaFunction)
    (m : QueryMethod) :
    ∀ qms : List QueryMethod, m ∈ qms → checkMethod cg okFuncs m = none →
      checkMethods cg okFuncs qms = none := by
  intro qms
  induction qms with
  | nil => intro hm; cases hm
  | cons a rest ih =>
    intro hm hnone
    rcases List.mem_cons.mp hm with rfl | hin
    · unfold checkMethods
      rw [hnone]
    · unfold checkMethods
      cases checkMethod cg okFuncs a with
      | none => rfl
      | some r =>
        rw [ih hin hnone]

/-- C3: for a non-skipped incoming edge of a tracked method `m`, the engine
inspects the argument at `m`'s recorded index after dropping the first
call-site argument when the count is `m.ArgCount + 1`, uses the arguments
unchanged when the count is exactly `m.ArgCount`, and for any other count the
whole analysis aborts with the source's `panic("arg count mismatch")`,
modelled as `FindNonConstCalls` returning `none`. -/
theorem findNonConstCalls_argcount (cg : CallGraph) (qms : List QueryMethod)
    (m : QueryMethod) (node : CallGraphNode) (e : CallEdge)
    (hm : m ∈ qms)
    (hnode : (deleteSyntheticNodes cg).lookupNode m.SSA = some node)
    (he : e ∈ node.inEdges)
    (h1 : e.site.parent ∉ okFuncsOf qms)
    (h2 : isInternalSQLPkg e.callerFunc.pkgPath = false) :
    (e.site.args.length = m.ArgCount + 1 →
        checkEdge (okFuncsOf qms) m e = classifyAt (e.site.args.drop 1) m.Param e.site)
    ∧ (e.site.args.length = m.ArgCount →
        checkEdge (okFuncsOf qms) m e = classifyAt e.site.args m.Param e.site)
    ∧ (e.site.args.length ≠ m.ArgCount + 1 → e.site.args.length ≠ m.ArgCount →
        FindNonConstCalls cg qms = none) := by
  have hskip : ∀ r, checkEdge (okFuncsOf qms) m e = r ↔
      (match resolveArgs m e.site.args with
       | none => none
       | some args => classifyAt args m.Param e.site) = r := by
    intro r
    unfold checkEdge
    rw [if_neg h1, if_neg (by rw [h2]; exact Bool.false_ne_true)]
  refine ⟨?_, ?_, ?_⟩
  · intro hlen
    rw [hskip]
    unfold resolveArgs
    rw [if_pos hlen]
  · intro hlen
    rw [hskip]
    unfold resolveArgs
    rw [if_neg (by omega), if_pos hlen]
  · intro hlen1 hlen2
    have hce : checkEdge (okFuncsOf qms) m e = none := by
      rw [hskip]
      unfold resolveArgs
      rw [if_neg hlen1, if_neg hlen2]
    have hces : checkEdges (okFuncsOf qms) m node.inEdges = none :=
      checkEdges_none_of_mem (okFuncsOf qms) m e node.inEdges he hce
    have hcm : checkMethod (deleteSyntheticNodes cg) (okFuncsOf qms) m = none := by
      unfold checkMethod
      rw [hnode]
      exact hces
    unfold FindNonConstCalls
    exact checkMethods_none_of_mem (deleteSyntheticNodes cg) (okFuncsOf qms) m qms hm hcm

/-- C3 witness: the abort clause of the argument-count theorem applied to
`c3Graph`, whose single edge carries three arguments against a one-parameter
method: the whole analysis aborts. -/
theorem findNonConstCalls_argcount_witness :
    FindNonConstCalls c3Graph [c3Qm] = none :=
  (findNonConstCalls_argcount c3Graph [c3Qm] c3Qm c3Node c3Edge
      (by decide) (by decide) (by decide) (by decide) (by decide)).2.2
    (by decide) (by decide)

/-- C6: an incoming edge whose caller is itself the underlying function of a
tracked sink method is skipped outright — the edge contributes no finding,
whatever its argument values, and the skip happens before the argument-count
check.  `checkEdge` is the engine's per-edge step; the skip compares
`edge.Site.Parent()` against the allowlist, which coincides with the caller
under the call-graph invariant `edge.Site.Parent() = edge.Caller.Func`, taken
here as a hypothesis. -/
theorem checkEdge_skips_tracked_sink_caller (qms : List QueryMethod)
    (m : QueryMethod) (e : CallEdge)
    (hwf : e.site.parent = e.callerFunc)
    (hc : ∃ m2 ∈ qms, e.callerFunc = m2.SSA) :
    checkEdge (okFuncsOf qms) m e = some [] := by
  obtain ⟨m2, hm2, heq⟩ := hc
  have hmem : e.site.parent ∈ okFuncsOf qms := by
    rw [hwf, heq]
    exact List.mem_map_of_mem (fun q => q.SSA) hm2
  unfold checkEdge
  rw [if_pos hmem]

/-- C6 witness: the skip theorem applied to `c6Edge`, whose caller is the
tracked sink itself and whose designated argument is not constant. -/
theorem checkEdge_skips_tracked_sink_caller_witness :
    checkEdge (okFuncsOf [c6Qm]) c6Qm c6Edge = some [] :=
  checkEdge_skips_tracked_sink_caller [c6Qm] c6Qm c6Edge (by decide) ⟨c6Qm, by decide, by decide⟩

/-- C1 counterexample: the claim predicts a Finding for a boxed argument whose
underlying value has a non-string static type.  In `c1Graph` the sink's single
non-skipped edge passes exactly such a value (boxed, underlying type
`otherT 0`, referrer list recorded), yet `FindNonConstCalls` returns the empty
set: the source's `continue` fires whenever the underlying type is not string,
so no Finding is recorded at the call site. -/
theorem findNonConstCalls_boxed_nonstring_counterexample :
    c1Site.args = [SsaValue.makeInterface true false (GoType.otherT 0)] ∧
    FindNonConstCalls c1Graph [c1Qm] = some [] := by
  exact ⟨by decide, by decide⟩

/-- C1 (amended): for a non-skipped edge whose designated argument is a value
boxed into an interface, the engine emits no Finding whenever the underlying
value has no recorded referrers or its static type is not string, and records
a Finding at the call site exactly when the underlying value has string static
type and a recorded (non-nil) referrer list. -/
theorem checkEdge_boxed_classification (okFuncs : List SsaFunction)
    (m : QueryMethod) (e : CallEdge)
    (h1 : e.site.parent ∉ okFuncs)
    (h2 : isInternalSQLPkg e.callerFunc.pkgPath = false)
    (args : List SsaValue) (hargs : resolveArgs m e.site.args = some args)
    (rn : Bool) (xt : GoType)
    (hv : args[m.Param]? = some (SsaValue.makeInterface true rn xt)) :
    checkEdge okFuncs m e =
      some (if rn = true ∨ xt ≠ GoType.stringT then [] else [e.site]) := by
  unfold checkEdge
  rw [if_neg h1, if_neg (by rw [h2]; exact Bool.false_ne_true), hargs]
  unfold classifyAt
  dsimp only
  rw [hv]
  dsimp only
  unfold flagsValue
  by_cases hcond : rn = true ∨ xt ≠ GoType.stringT
  · rw [if_pos hcond]
    have : (rn || xt != GoType.stringT) = true := by
      rcases hcond with hrn | hxt
      · simp [hrn]
      · simp [bne_iff_ne, hxt]
    simp [this]
  · rw [if_neg hcond]
    push_neg at hcond
    obtain ⟨hrn, hxt⟩ := hcond
    have hrn2 : rn = false := by
      cases rn
      · rfl
      · exact absurd rfl hrn
    simp [hrn2, hxt]

/-- C1 witness: the amended classification applied to `c1Edge`, whose boxed
operand has non-string type and a recorded referrer list — no Finding. -/
theorem checkEdge_boxed_classification_witness :
    checkEdge (okFuncsOf [c1Qm]) c1Qm c1Edge = some [] :=
  (checkEdge_boxed_classification (okFuncsOf [c1Qm]) c1Qm c1Edge
      (by decide) (by decide)
      [SsaValue.makeInterface true false (GoType.otherT 0)] (by decide)
      false (GoType.otherT 0) (by decide)).trans (by decide)

/-- C9: outside the exemption, `run`'s returned error is exactly the one the
syntax-tree pass `CheckSafeSqlAst` returns; whatever error `CheckSafeSqlSsa`
produced is overwritten, so call-graph findings alone never make `run` return
an error.  The finding positions the two passes print/report accumulate in
order. -/
theorem run_error_is_ast_error (p : Pass) (e1 : Option GoError) (f1 : List Nat)
    (hex : sqlPackages.any (fun sql => strHasPref p.pkgPath sql.packageName) = false)
    (hssa : CheckSafeSqlSsa p = some (e1, f1)) :
    run p = (CheckSafeSqlAst p).map (fun r2 => (r2.1, f1 ++ r2.2)) := by
  unfold run
  rw [if_neg (by rw [hex]; exact Bool.false_ne_true), hssa]
  cases CheckSafeSqlAst p with
  | none => rfl
  | some r2 => rfl

/-- C9 witness: on `c9Pass` the IR pass returns no error (no `main`
function), the AST pass reports the non-literal query argument, and `run`
returns exactly the AST pass's error. -/
theorem run_error_is_ast_error_witness :
    run c9Pass = some (some GoError.potentiallyUnsafe, [9]) :=
  (run_error_is_ast_error c9Pass none [] (by decide) (by decide)).trans (by decide)
